import Mathlib

/-!
# Verification of the invoice-sorter file-organization engine

Shallow embedding of the `FileSystem` class of the invoice-sorter API
(`src/unnamed/part_001`) and proofs about its operations.

Modelling conventions:
* JS strings are modelled as `List Char` (`Str`); `str` converts a Lean
  string literal.
* The filesystem is a list of entries (path, file/directory flag, byte
  content).  Path existence (`fs.access`), directory emptiness
  (`ENOTEMPTY`) and directory listings are computed from this state.
* Node `fs/promises` calls that can reject for reasons external to the
  modelled state (permissions, disk errors, missing parents, ...) draw
  those outcomes from an explicit `SysEnv` of injected errors: `none`
  means the call succeeds, `some e` means the promise rejects with `e`.
* A JS function that can return `undefined` is modelled with `Option`;
  a function from which an exception can escape is modelled with
  `Except`.
* `await fs.copyFile(...)`, `fs.rm`, `fs.mkdir` resolve with `undefined`
  on success, so the JS guards of the form
  `let hasXFailed = await fs.y(...); if (hasXFailed) throw ...`
  test the value `undefined`, which is falsy: those `throw` branches are
  unreachable and are noted in comments rather than translated.
-/

namespace InvoiceSorter

/-- JS strings as char sequences. -/
abbrev Str := List Char

/-- Conversion from a Lean string literal. -/
def str (s : String) : Str := s.data

/-- One filesystem object: its absolute path, whether it is a regular
file (`stat().isFile()`), and its byte content (files only). -/
structure Entry where
  path : Str
  isFile : Bool
  content : List Nat := []
deriving DecidableEq, Repr

/-- Filesystem state: the list of existing entries. -/
abbrev FS := List Entry

/-- A JS `Error` object: `message`, the Node `code` property (set on
system-call errors such as `ENOTEMPTY`), and the `cause` option. -/
structure JsError where
  message : Str
  code : Option Str := none
  cause : Option Str := none
deriving DecidableEq, Repr

/-- Injected outcomes for the Node calls that can reject for reasons
outside the modelled state; `none` means the call succeeds. -/
structure SysEnv where
  copyErr : Str → Str → Option JsError
  rmErr : Str → Option JsError
  mkdirErr : Str → Option JsError
  rmdirErr : Str → Option JsError

/-- A `SysEnv` in which every call succeeds. -/
def noFail : SysEnv :=
  { copyErr := fun _ _ => none, rmErr := fun _ => none,
    mkdirErr := fun _ => none, rmdirErr := fun _ => none }

/-- The two configured roots (`_invoiceFolderPath`,
`_directoriesFolderPath`) and the `_fileSystemName` of one `FileSystem`
instance. -/
structure FSys where
  name : Str
  invoiceFolderPath : Str
  directoriesFolderPath : Str

/-- The JS template `` `${dir}/${name}` `` used to build paths. -/
def pathJoin (dir name : Str) : Str := dir ++ '/' :: name

/-- `_checkPath` (lines 87-96): `fs.access` succeeds exactly when the
path exists; any failure is reported as `false`. -/
def checkPath (fs : FS) (p : Str) : Bool := fs.any fun e => decide (e.path = p)

/-- Effect of `fs.rm p`: every entry at path `p` disappears. -/
def removePath (fs : FS) (p : Str) : FS := fs.filter fun e => decide (e.path ≠ p)

/-- First entry at a path, used to read `stat` and file content. -/
def findEntry (fs : FS) (p : Str) : Option Entry := fs.find? fun e => decide (e.path = p)

/-- Content of the file at `p` (empty if absent). -/
def contentAt (fs : FS) (p : Str) : List Nat := ((findEntry fs p).map Entry.content).getD []

/-- Trace of the filesystem calls an operation performed. -/
inductive SysOp where
  | accessOp (p : Str)
  | copyOp (src dst : Str)
  | rmOp (p : Str)
  | mkdirOp (p : Str)
  | rmdirOp (p : Str)
deriving DecidableEq, Repr

/-- `_moveFile` (lines 118-141).  Returns the `[success, errorMessage]`
pair of the JS code, the filesystem after the call, and the trace of
filesystem calls made.  The two precondition failures throw
`SourcePathInvalid` / `DestinationPathAlreadyInUse`, caught by the
function's own `catch`, which returns `[false, error.message]`.  A
rejection of `fs.copyFile` or `fs.rm` is likewise caught, so the
returned cause is then the rejection's own message (the
`'failedToCopyFile'` / `'failedToDeleteFile'` throws on lines 128 and
133 guard the resolved value `undefined` of the preceding call and can
never fire). -/
def moveFile (env : SysEnv) (fs : FS) (sourcePath destinationPath : Str) :
    (Bool × Option Str) × FS × List SysOp :=
  if ¬ checkPath fs sourcePath then
    ((false, some (str "SourcePathInvalid")), fs, [.accessOp sourcePath])
  else if checkPath fs destinationPath then
    ((false, some (str "DestinationPathAlreadyInUse")), fs,
      [.accessOp sourcePath, .accessOp destinationPath])
  else
    match env.copyErr sourcePath destinationPath with
    | some e =>
      ((false, some e.message), fs,
        [.accessOp sourcePath, .accessOp destinationPath,
         .copyOp sourcePath destinationPath])
    | none =>
      -- the copy succeeded: the destination now holds the source's bytes
      let fs1 : FS :=
        { path := destinationPath, isFile := true,
          content := contentAt fs sourcePath } :: fs
      match env.rmErr sourcePath with
      | some e =>
        -- deletion failed after the copy: the file exists at BOTH paths
        ((false, some e.message), fs1,
          [.accessOp sourcePath, .accessOp destinationPath,
           .copyOp sourcePath destinationPath, .rmOp sourcePath])
      | none =>
        ((true, none), removePath fs1 sourcePath,
          [.accessOp sourcePath, .accessOp destinationPath,
           .copyOp sourcePath destinationPath, .rmOp sourcePath])

theorem checkPath_removePath (fs : FS) (p q : Str) :
    checkPath (removePath fs p) q = (decide (q ≠ p) && checkPath fs q) := by
  induction fs with
  | nil => simp [checkPath, removePath]
  | cons e t ih =>
    by_cases he : e.path = p
    · by_cases hq : q = p
      · subst hq
        simp_all [checkPath, removePath]
      · have hne : p ≠ q := Ne.symm hq
        simp_all [checkPath, removePath]
    · by_cases hq : e.path = q
      · have hqp : q ≠ p := fun hh => he (hq.trans hh)
        simp_all [checkPath, removePath]
      · simp_all [checkPath, removePath]

theorem checkPath_removePath_self (fs : FS) (p : Str) :
    checkPath (removePath fs p) p = false := by
  simp [checkPath_removePath]

theorem checkPath_removePath_ne (fs : FS) {p q : Str} (h : q ≠ p) :
    checkPath (removePath fs p) q = checkPath fs q := by
  simp [checkPath_removePath, h]

theorem checkPath_cons (e : Entry) (fs : FS) (q : Str) :
    checkPath (e :: fs) q = (decide (e.path = q) || checkPath fs q) := by
  simp [checkPath]

/-- Success of `_moveFile` forces all four steps to have gone through. -/
theorem moveFile_success_inversion (env : SysEnv) (fs : FS) (a b : Str)
    (h : (moveFile env fs a b).1 = (true, none)) :
    checkPath fs a = true ∧ checkPath fs b = false ∧
    env.copyErr a b = none ∧ env.rmErr a = none ∧
    (moveFile env fs a b).2.1 =
      removePath ({ path := b, isFile := true, content := contentAt fs a } :: fs) a := by
  by_cases hs : checkPath fs a
  · by_cases hd : checkPath fs b
    · simp [moveFile, hs, hd] at h
    · cases hc : env.copyErr a b with
      | some e => simp [moveFile, hs, hd, hc] at h
      | none =>
        cases hr : env.rmErr a with
        | some e => simp [moveFile, hs, hd, hc, hr] at h
        | none => exact ⟨hs, by simp [hd], rfl, rfl, by simp [moveFile, hs, hd, hc, hr]⟩
  · simp [moveFile, hs] at h

/-- C2: the claim says a failed copy yields cause `FailedToCopyFile` and a
failed deletion yields cause `FailedToDeleteFile`.  Evaluating `_moveFile` at
inputs where the copy (resp. deletion) call rejects shows the returned cause
is the rejection's own raw message instead: the guards on lines 127-128 and
132-133 test the resolved value (`undefined`) of `fs.copyFile` / `fs.rm`, so
the named causes are unreachable, contradicting the comments on lines
125-126 and 130-131. -/
theorem moveFile_failing_copy_and_delete_surface_raw_causes :
    ((moveFile
        { noFail with copyErr := fun _ _ => some { message := str "EACCES: permission denied" } }
        [{ path := str "inv/a.pdf", isFile := true }]
        (str "inv/a.pdf") (str "dir/A/Acme/2024/a.pdf")).1 =
      (false, some (str "EACCES: permission denied")) ∧
     str "EACCES: permission denied" ≠ str "failedToCopyFile") ∧
    ((moveFile
        { noFail with rmErr := fun _ => some { message := str "EBUSY: resource busy" } }
        [{ path := str "inv/a.pdf", isFile := true }]
        (str "inv/a.pdf") (str "dir/A/Acme/2024/a.pdf")).1 =
      (false, some (str "EBUSY: resource busy")) ∧
     str "EBUSY: resource busy" ≠ str "failedToDeleteFile") := by
  decide

/-- C6: with no interference (and no injected failures for the reverse
move), a successful `move(a, b)` followed by `move(b, a)` succeeds and
restores the original state: the file is present at `a` and absent at
`b`. -/
theorem moveFile_round_trip (env : SysEnv) (fs : FS) (a b : Str)
    (h1 : (moveFile env fs a b).1 = (true, none))
    (h2 : env.copyErr b a = none) (h3 : env.rmErr b = none) :
    (moveFile env (moveFile env fs a b).2.1 b a).1 = (true, none) ∧
    checkPath (moveFile env (moveFile env fs a b).2.1 b a).2.1 a = true ∧
    checkPath (moveFile env (moveFile env fs a b).2.1 b a).2.1 b = false := by
  obtain ⟨hs, hd, hc, hr, hfs⟩ := moveFile_success_inversion env fs a b h1
  have hab : a ≠ b := by
    intro h; rw [h] at hs; rw [hs] at hd; exact Bool.noConfusion hd
  set fs1 := (moveFile env fs a b).2.1 with hfs1
  have hb1 : checkPath fs1 b = true := by
    rw [hfs, checkPath_removePath]
    simp [checkPath_cons, Ne.symm hab]
  have ha1 : checkPath fs1 a = false := by
    rw [hfs]; exact checkPath_removePath_self _ _
  have key : moveFile env fs1 b a =
      ((true, none),
        removePath ({ path := a, isFile := true, content := contentAt fs1 b } :: fs1) b,
        [.accessOp b, .accessOp a, .copyOp b a, .rmOp b]) := by
    simp [moveFile, hb1, ha1, h2, h3]
  rw [key]
  refine ⟨rfl, ?_, ?_⟩
  · rw [checkPath_removePath]; simp [checkPath_cons, hab]
  · exact checkPath_removePath_self _ _

/-- A one-file filesystem used by concrete witnesses. -/
def fsX : FS := [{ path := str "x", isFile := true }]

/-- Witness for `moveFile_round_trip` at a concrete state. -/
theorem moveFile_round_trip_witness :
    (moveFile noFail fsX (str "x") (str "y")).1 = (true, none) ∧
    ((moveFile noFail (moveFile noFail fsX (str "x") (str "y")).2.1
        (str "y") (str "x")).1 = (true, none) ∧
     checkPath (moveFile noFail (moveFile noFail fsX (str "x") (str "y")).2.1
        (str "y") (str "x")).2.1 (str "x") = true ∧
     checkPath (moveFile noFail (moveFile noFail fsX (str "x") (str "y")).2.1
        (str "y") (str "x")).2.1 (str "y") = false) :=
  ⟨by decide, moveFile_round_trip noFail fsX (str "x") (str "y") (by decide) rfl rfl⟩

/-- C9: when the copy phase of `_moveFile` rejects, the operation returns
failure, performs no deletion (the trace holds no `rm` call), and leaves
the filesystem - in particular the source file - unchanged. -/
theorem moveFile_copy_failure_frame (env : SysEnv) (fs : FS) (s d : Str) (e : JsError)
    (hs : checkPath fs s = true) (hd : checkPath fs d = false)
    (hc : env.copyErr s d = some e) :
    moveFile env fs s d =
      ((false, some e.message), fs, [.accessOp s, .accessOp d, .copyOp s d]) ∧
    checkPath (moveFile env fs s d).2.1 s = true ∧
    (∀ p, SysOp.rmOp p ∉ (moveFile env fs s d).2.2) := by
  have hm : moveFile env fs s d =
      ((false, some e.message), fs, [.accessOp s, .accessOp d, .copyOp s d]) := by
    simp [moveFile, hs, hd, hc]
  refine ⟨hm, by rw [hm]; exact hs, ?_⟩
  intro p
  rw [hm]
  simp

/-- An environment whose copy call always rejects, for concrete witnesses. -/
def envEIO : SysEnv :=
  { noFail with copyErr := fun _ _ => some { message := str "EIO: i/o error" } }

/-- Witness for `moveFile_copy_failure_frame` at a concrete state. -/
theorem moveFile_copy_failure_frame_witness :
    checkPath fsX (str "x") = true ∧
    (moveFile envEIO fsX (str "x") (str "y") =
      ((false, some (str "EIO: i/o error")), fsX,
        [.accessOp (str "x"), .accessOp (str "y"), .copyOp (str "x") (str "y")]) ∧
     checkPath (moveFile envEIO fsX (str "x") (str "y")).2.1 (str "x") = true ∧
     (∀ p, SysOp.rmOp p ∉ (moveFile envEIO fsX (str "x") (str "y")).2.2)) :=
  ⟨by decide,
   moveFile_copy_failure_frame envEIO fsX (str "x") (str "y")
     { message := str "EIO: i/o error" } (by decide) (by decide) rfl⟩

/-! ## Collision resolver (`_checkInvoiceFileName`, lines 211-241) -/

/-- The regex class `\d`, i.e. the chars `'0'`-`'9'`. -/
def isDig (c : Char) : Bool := decide (48 ≤ c.toNat) && decide (c.toNat ≤ 57)

/-- Maximal leading run of decimal digits of a string. -/
def grabDigits : Str → Str × Str
  | [] => ([], [])
  | c :: t =>
    if isDig c then
      let p := grabDigits t
      (c :: p.1, p.2)
    else ([], c :: t)

/-- Attempt of the regex `/\((\d+)\)/` to match right after a `'('`:
one-or-more digits followed by `')'` (with backtracking, this succeeds
exactly when the maximal digit run is nonempty and followed by `')'`).
Returns the captured digits and the text after the match. -/
def cpHere (t : Str) : Option (Str × Str) :=
  match grabDigits t with
  | (d :: ds, c :: r) => if c = ')' then some (d :: ds, r) else none
  | _ => none

/-- The JS regex `/\((\d+)\)/` applied to a whole string: the leftmost
position where `'('`, one-or-more digits and `')'` match.  Returns the
text before the match, the captured digits, and the text after. -/
def findCopyPattern : Str → Option (Str × Str × Str)
  | [] => none
  | c :: t =>
    if c = '(' then
      match cpHere t with
      | some (ds, r) => some ([], ds, r)
      | none =>
        match findCopyPattern t with
        | some (pre, ds, suf) => some (c :: pre, ds, suf)
        | none => none
    else
      match findCopyPattern t with
      | some (pre, ds, suf) => some (c :: pre, ds, suf)
      | none => none

/-- JS `parseInt` on an all-digit decimal string. -/
def parseDigits (ds : Str) : Nat := ds.foldl (fun a c => 10 * a + (c.toNat - 48)) 0

/-- Decimal digits of `n`, most significant first (`fuel`-guarded). -/
def natDigitsAux : Nat → Nat → Str
  | 0, _ => []
  | fuel + 1, n => if n = 0 then [] else natDigitsAux fuel (n / 10) ++ [Nat.digitChar (n % 10)]

/-- JS number-to-string conversion for a natural number. -/
def natToDigits (n : Nat) : Str := if n = 0 then ['0'] else natDigitsAux (n + 1) n

/-- JS `name.substring(0, name.lastIndexOf('.'))`: everything before the
last dot; the empty string when there is no dot (`lastIndexOf` is `-1`
and `substring` clamps it to `0`). -/
def stemOf (name : Str) : Str :=
  ((name.reverse.dropWhile (fun c => decide (c ≠ '.'))).drop 1).reverse

/-- One execution of the do-while body in `_checkInvoiceFileName`
(lines 222-229): if the name has no copy indicator, append `" (2).pdf"`
to the stem; otherwise replace the first `(n)` by `(n+1)`. -/
def rewriteName (name : Str) : Str :=
  match findCopyPattern name with
  | none => stemOf name ++ str " (2).pdf"
  | some (pre, ds, suf) => pre ++ '(' :: natToDigits (parseDigits ds + 1) ++ ')' :: suf

/-- The number inside the first copy indicator (`0` when there is none);
used only to justify termination of the renaming loop. -/
def numberOf (name : Str) : Nat :=
  match findCopyPattern name with
  | none => 0
  | some (_, ds, _) => parseDigits ds

/-- Length of the longest path present in the filesystem. -/
def maxPathLen (fs : FS) : Nat := fs.foldr (fun e m => max e.path.length m) 0

theorem grabDigits_cons_dig (c : Char) (t : Str) (hc : isDig c = true) :
    grabDigits (c :: t) = (c :: (grabDigits t).1, (grabDigits t).2) := by
  simp [grabDigits, hc]

theorem grabDigits_cons_not_dig (c : Char) (t : Str) (hc : isDig c = false) :
    grabDigits (c :: t) = ([], c :: t) := by
  simp [grabDigits, hc]

theorem grabDigits_append (a b : Str) :
    grabDigits (a ++ b) =
      if (grabDigits a).2 = [] then ((grabDigits a).1 ++ (grabDigits b).1, (grabDigits b).2)
      else ((grabDigits a).1, (grabDigits a).2 ++ b) := by
  induction a with
  | nil => simp [grabDigits]
  | cons c t ih =>
    by_cases hc : isDig c
    · rw [List.cons_append, grabDigits_cons_dig c _ hc, grabDigits_cons_dig c t hc, ih]
      by_cases ht : (grabDigits t).2 = [] <;> simp [ht]
    · rw [List.cons_append, grabDigits_cons_not_dig c _ (by simpa using hc),
        grabDigits_cons_not_dig c t (by simpa using hc)]
      simp

theorem grabDigits_self_append (a : Str) :
    (grabDigits a).1 ++ (grabDigits a).2 = a := by
  induction a with
  | nil => rfl
  | cons c t ih =>
    by_cases hc : isDig c <;> simp [grabDigits, hc, ih]

theorem grabDigits_all_dig (a : Str) : ∀ c ∈ (grabDigits a).1, isDig c = true := by
  induction a with
  | nil => simp [grabDigits]
  | cons c t ih =>
    by_cases hc : isDig c <;> simp [grabDigits, hc]
    intro x hx
    exact ih x hx

theorem grabDigits_of_all_dig (a : Str) (h : ∀ c ∈ a, isDig c = true) :
    grabDigits a = (a, []) := by
  induction a with
  | nil => rfl
  | cons c t ih =>
    have hc : isDig c = true := h c (by simp)
    simp [grabDigits, hc, ih fun x hx => h x (by simp [hx])]

theorem grabDigits_head_not_dig (a : Str) :
    (grabDigits a).2 = [] ∨ ∃ c r, (grabDigits a).2 = c :: r ∧ isDig c = false := by
  induction a with
  | nil => left; rfl
  | cons c t ih =>
    by_cases hc : isDig c
    · simpa [grabDigits, hc] using ih
    · right; exact ⟨c, t, by simp [grabDigits, hc], by simpa using hc⟩

theorem cpHere_sound (t ds r : Str) (h : cpHere t = some (ds, r)) :
    t = ds ++ ')' :: r ∧ ds ≠ [] ∧ ∀ c ∈ ds, isDig c = true := by
  unfold cpHere at h
  cases hg : grabDigits t with
  | mk g1 g2 =>
    rw [hg] at h
    rcases g1 with _ | ⟨d, ds'⟩
    · simp at h
    · rcases g2 with _ | ⟨c2, r'⟩
      · simp at h
      · by_cases hc2 : c2 = ')'
        · subst hc2
          simp only [if_true, Option.some.injEq, Prod.mk.injEq, reduceIte] at h
          obtain ⟨h1, h2⟩ := h
          subst h1
          subst h2
          refine ⟨?_, by simp, ?_⟩
          · have := grabDigits_self_append t
            rw [hg] at this
            simpa using this.symm
          · have := grabDigits_all_dig t
            rw [hg] at this
            simpa using this
        · simp [hc2] at h

theorem cpHere_complete (d suf : Str) (hne : d ≠ []) (hd : ∀ c ∈ d, isDig c = true) :
    cpHere (d ++ ')' :: suf) = some (d, suf) := by
  have hgd : grabDigits d = (d, []) := grabDigits_of_all_dig d hd
  have hgg : grabDigits (d ++ ')' :: suf) = (d, ')' :: suf) := by
    rw [grabDigits_append, hgd]
    simp [grabDigits, isDig]
  unfold cpHere
  rw [hgg]
  rcases d with _ | ⟨c, ds⟩
  · exact absurd rfl hne
  · rfl

theorem findCP_cons_none (c : Char) (t : Str) (h : findCopyPattern (c :: t) = none) :
    findCopyPattern t = none ∧ (c = '(' → cpHere t = none) := by
  by_cases hc : c = '('
  · subst hc
    cases hcp : cpHere t with
    | some v =>
      rcases v with ⟨ds, r⟩
      simp [findCopyPattern, hcp] at h
    | none =>
      cases hf : findCopyPattern t with
      | some v =>
        rcases v with ⟨pre, ds, suf⟩
        simp [findCopyPattern, hcp, hf] at h
      | none => exact ⟨rfl, fun _ => rfl⟩
  · cases hf : findCopyPattern t with
    | some v =>
      rcases v with ⟨pre, ds, suf⟩
      simp [findCopyPattern, hc, hf] at h
    | none => exact ⟨rfl, fun hcc => absurd hcc hc⟩

theorem findCP_sound (s pre ds suf : Str)
    (h : findCopyPattern s = some (pre, ds, suf)) :
    s = pre ++ '(' :: (ds ++ ')' :: suf) ∧ ds ≠ [] ∧ ∀ c ∈ ds, isDig c = true := by
  induction s generalizing pre ds suf with
  | nil => simp [findCopyPattern] at h
  | cons c t ih =>
    unfold findCopyPattern at h
    by_cases hc : c = '('
    · rw [if_pos hc] at h
      subst hc
      cases hcp : cpHere t with
      | some v =>
        rcases v with ⟨ds', r'⟩
        rw [hcp] at h
        simp only [Option.some.injEq, Prod.mk.injEq] at h
        obtain ⟨rfl, rfl, rfl⟩ := h
        obtain ⟨ht, hne, hdig⟩ := cpHere_sound t ds' r' hcp
        exact ⟨by rw [ht]; rfl, hne, hdig⟩
      | none =>
        rw [hcp] at h
        cases hf : findCopyPattern t with
        | some v =>
          rcases v with ⟨pre', ds', suf'⟩
          rw [hf] at h
          simp only [Option.some.injEq, Prod.mk.injEq] at h
          obtain ⟨rfl, rfl, rfl⟩ := h
          obtain ⟨ht, hne, hdig⟩ := ih pre' ds' suf' hf
          exact ⟨by rw [ht]; rfl, hne, hdig⟩
        | none =>
          rw [hf] at h
          exact absurd h (by simp)
    · rw [if_neg hc] at h
      cases hf : findCopyPattern t with
      | some v =>
        rcases v with ⟨pre', ds', suf'⟩
        rw [hf] at h
        simp only [Option.some.injEq, Prod.mk.injEq] at h
        obtain ⟨rfl, rfl, rfl⟩ := h
        obtain ⟨ht, hne, hdig⟩ := ih pre' ds' suf' hf
        exact ⟨by rw [ht]; rfl, hne, hdig⟩
      | none =>
        rw [hf] at h
        exact absurd h (by simp)

theorem cpHere_paren_none_iff (t x : Str) :
    cpHere (t ++ '(' :: x) = none ↔ cpHere (t ++ ['(']) = none := by
  unfold cpHere
  rw [grabDigits_append, grabDigits_append]
  by_cases ht2 : (grabDigits t).2 = []
  · rw [if_pos ht2, if_pos ht2]
    rw [grabDigits_cons_not_dig '(' x (by decide)]
    have g1 : grabDigits ['('] = ([], ['(']) := by decide
    rw [g1]
    cases hg : (grabDigits t).1 with
    | nil => simp
    | cons a b => simp
  · rw [if_neg ht2, if_neg ht2]
    obtain h2 | ⟨cz, rz, hcr, _⟩ := grabDigits_head_not_dig t
    · exact absurd h2 ht2
    · rw [hcr]
      cases hg : (grabDigits t).1 with
      | nil => simp
      | cons a b =>
        simp only [List.cons_append]
        by_cases hcz : cz = ')'
        · subst hcz
          simp
        · simp [hcz]

theorem findCP_complete (pre d suf : Str)
    (hpre : findCopyPattern (pre ++ ['(']) = none)
    (hne : d ≠ []) (hd : ∀ c ∈ d, isDig c = true) :
    findCopyPattern (pre ++ '(' :: (d ++ ')' :: suf)) = some (pre, d, suf) := by
  induction pre with
  | nil =>
    simp only [List.nil_append]
    simp [findCopyPattern, cpHere_complete d suf hne hd]
  | cons c t ih =>
    obtain ⟨ht, hcp⟩ := findCP_cons_none c (t ++ ['(']) (by simpa using hpre)
    have ihr : findCopyPattern (t ++ '(' :: (d ++ ')' :: suf)) = some (t, d, suf) := ih ht
    by_cases hc : c = '('
    · subst hc
      have hcpl : cpHere (t ++ '(' :: (d ++ ')' :: suf)) = none :=
        (cpHere_paren_none_iff t (d ++ ')' :: suf)).mpr (hcp rfl)
      have hsh : ('(' :: t) ++ '(' :: (d ++ ')' :: suf) =
          '(' :: (t ++ '(' :: (d ++ ')' :: suf)) := rfl
      rw [hsh]
      unfold findCopyPattern
      rw [if_pos rfl, hcpl, ihr]
    · have hsh : (c :: t) ++ '(' :: (d ++ ')' :: suf) =
          c :: (t ++ '(' :: (d ++ ')' :: suf)) := rfl
      rw [hsh]
      unfold findCopyPattern
      rw [if_neg hc, ihr]

theorem findCP_append_none (a b b' : Str)
    (h : findCopyPattern (a ++ b) = none)
    (hb' : findCopyPattern b' = none)
    (hhead : ∀ c r, b' = c :: r → isDig c = false ∧ c ≠ ')') :
    findCopyPattern (a ++ b') = none := by
  induction a with
  | nil => simpa using hb'
  | cons c t ih =>
    obtain ⟨ht, hcp⟩ := findCP_cons_none c (t ++ b) (by simpa using h)
    have ihr := ih ht
    by_cases hc : c = '('
    · subst hc
      have hcpl : cpHere (t ++ b') = none := by
        have hshort := hcp rfl
        unfold cpHere at hshort ⊢
        rw [grabDigits_append] at hshort ⊢
        by_cases ht2 : (grabDigits t).2 = []
        · rw [if_pos ht2] at hshort ⊢
          rcases hb2 : b' with _ | ⟨c', r'⟩
          · simp [grabDigits]
          · obtain ⟨hcd, hcp'⟩ := hhead c' r' hb2
            rw [grabDigits_cons_not_dig c' r' hcd]
            cases hg : (grabDigits t).1 with
            | nil => simp
            | cons x xs => simp [hcp']
        · rw [if_neg ht2] at hshort ⊢
          obtain h2 | ⟨cz, rz, hcr, _⟩ := grabDigits_head_not_dig t
          · exact absurd h2 ht2
          · rw [hcr] at hshort ⊢
            cases hg : (grabDigits t).1 with
            | nil => simp
            | cons x xs =>
              rw [hg] at hshort
              simp only [List.cons_append] at hshort ⊢
              by_cases hcz : cz = ')'
              · subst hcz
                simp at hshort
              · simp [hcz]
      show findCopyPattern ('(' :: (t ++ b')) = none
      unfold findCopyPattern
      rw [if_pos rfl, hcpl, ihr]
    · show findCopyPattern (c :: (t ++ b')) = none
      unfold findCopyPattern
      rw [if_neg hc, ihr]

theorem findCP_pre_paren_none (s pre ds suf : Str)
    (h : findCopyPattern s = some (pre, ds, suf)) :
    findCopyPattern (pre ++ ['(']) = none := by
  induction s generalizing pre ds suf with
  | nil => simp [findCopyPattern] at h
  | cons c t ih =>
    unfold findCopyPattern at h
    by_cases hc : c = '('
    · rw [if_pos hc] at h
      cases hcp : cpHere t with
      | some v =>
        rcases v with ⟨ds', r'⟩
        rw [hcp] at h
        simp only [Option.some.injEq, Prod.mk.injEq] at h
        obtain ⟨rfl, rfl, rfl⟩ := h
        decide
      | none =>
        rw [hcp] at h
        cases hf : findCopyPattern t with
        | some v =>
          rcases v with ⟨pre', ds', suf'⟩
          rw [hf] at h
          simp only [Option.some.injEq, Prod.mk.injEq] at h
          obtain ⟨rfl, rfl, rfl⟩ := h
          subst hc
          have ihp := ih pre' ds' suf' hf
          obtain ⟨hshape, _, _⟩ := findCP_sound t pre' ds' suf' hf
          have hcpl : cpHere (pre' ++ ['(']) = none := by
            rw [hshape] at hcp
            exact (cpHere_paren_none_iff pre' (ds' ++ ')' :: suf')).mp hcp
          show findCopyPattern ('(' :: (pre' ++ ['('])) = none
          unfold findCopyPattern
          rw [if_pos rfl, hcpl, ihp]
        | none =>
          rw [hf] at h
          exact absurd h (by simp)
    · rw [if_neg hc] at h
      cases hf : findCopyPattern t with
      | some v =>
        rcases v with ⟨pre', ds', suf'⟩
        rw [hf] at h
        simp only [Option.some.injEq, Prod.mk.injEq] at h
        obtain ⟨rfl, rfl, rfl⟩ := h
        have ihp := ih pre' ds' suf' hf
        show findCopyPattern (c :: (pre' ++ ['('])) = none
        unfold findCopyPattern
        rw [if_neg hc, ihp]
      | none =>
        rw [hf] at h
        exact absurd h (by simp)

theorem digitChar_toNat (n : Nat) (h : n < 10) : (Nat.digitChar n).toNat = 48 + n := by
  interval_cases n <;> decide

theorem isDig_digitChar (n : Nat) (h : n < 10) : isDig (Nat.digitChar n) = true := by
  interval_cases n <;> decide

theorem parseDigits_append_one (xs : Str) (c : Char) :
    parseDigits (xs ++ [c]) = 10 * parseDigits xs + (c.toNat - 48) := by
  unfold parseDigits
  rw [List.foldl_append]
  rfl

theorem parseDigits_natDigitsAux (fuel n : Nat) (h : n < fuel) :
    parseDigits (natDigitsAux fuel n) = n := by
  induction fuel generalizing n with
  | zero => omega
  | succ f ih =>
    unfold natDigitsAux
    by_cases hn : n = 0
    · subst hn
      simp [parseDigits]
    · rw [if_neg hn, parseDigits_append_one]
      have hlt : n / 10 < f := by
        have := Nat.div_lt_self (Nat.pos_of_ne_zero hn) (by omega : 1 < 10)
        omega
      rw [ih (n / 10) hlt, digitChar_toNat (n % 10) (Nat.mod_lt _ (by omega))]
      omega

theorem parseDigits_natToDigits (n : Nat) : parseDigits (natToDigits n) = n := by
  unfold natToDigits
  by_cases hn : n = 0
  · rw [if_pos hn, hn]
    decide
  · rw [if_neg hn]
    exact parseDigits_natDigitsAux (n + 1) n (by omega)

theorem natToDigits_ne_nil (n : Nat) : natToDigits n ≠ [] := by
  unfold natToDigits
  by_cases hn : n = 0
  · simp [hn]
  · rw [if_neg hn]
    unfold natDigitsAux
    rw [if_neg hn]
    simp

theorem natDigitsAux_all_dig (fuel n : Nat) :
    ∀ c ∈ natDigitsAux fuel n, isDig c = true := by
  induction fuel generalizing n with
  | zero => simp [natDigitsAux]
  | succ f ih =>
    unfold natDigitsAux
    by_cases hn : n = 0
    · simp [hn]
    · rw [if_neg hn]
      intro c hc
      rw [List.mem_append] at hc
      rcases hc with hc | hc
      · exact ih (n / 10) c hc
      · simp only [List.mem_singleton] at hc
        subst hc
        exact isDig_digitChar _ (Nat.mod_lt _ (by omega))

theorem natToDigits_all_dig (n : Nat) : ∀ c ∈ natToDigits n, isDig c = true := by
  unfold natToDigits
  by_cases hn : n = 0
  · rw [if_pos hn]
    decide
  · rw [if_neg hn]
    exact natDigitsAux_all_dig _ _

theorem parseDigits_foldl_lt (ds : Str) (a : Nat) (hd : ∀ c ∈ ds, isDig c = true) :
    ds.foldl (fun a c => 10 * a + (c.toNat - 48)) a < (a + 1) * 10 ^ ds.length := by
  induction ds generalizing a with
  | nil => simp
  | cons c t ih =>
    have hc : isDig c = true := hd c (by simp)
    have hv : c.toNat - 48 ≤ 9 := by
      unfold isDig at hc
      simp at hc
      omega
    simp only [List.foldl_cons]
    calc t.foldl (fun a c => 10 * a + (c.toNat - 48)) (10 * a + (c.toNat - 48))
        < (10 * a + (c.toNat - 48) + 1) * 10 ^ t.length :=
          ih (10 * a + (c.toNat - 48)) (fun x hx => hd x (by simp [hx]))
      _ ≤ ((a + 1) * 10) * 10 ^ t.length :=
          Nat.mul_le_mul_right _ (by omega)
      _ = (a + 1) * 10 ^ (c :: t).length := by
          rw [List.length_cons, pow_succ]
          ring

theorem parseDigits_lt (ds : Str) (hd : ∀ c ∈ ds, isDig c = true) :
    parseDigits ds < 10 ^ ds.length := by
  have := parseDigits_foldl_lt ds 0 hd
  simpa [parseDigits] using this

theorem stemOf_prefix (name : Str) : ∃ t, name = stemOf name ++ t := by
  unfold stemOf
  rcases hdw : name.reverse.dropWhile (fun c => decide (c ≠ '.')) with _ | ⟨c, rest⟩
  · exact ⟨name, by simp⟩
  · refine ⟨c :: (name.reverse.takeWhile (fun c => decide (c ≠ '.'))).reverse, ?_⟩
    have h1 : name.reverse.takeWhile (fun c => decide (c ≠ '.')) ++ (c :: rest) =
        name.reverse := by
      rw [← hdw]
      exact List.takeWhile_append_dropWhile (fun c => decide (c ≠ '.')) name.reverse
    have h3 := congrArg List.reverse h1
    rw [List.reverse_reverse, List.reverse_append] at h3
    simp only [List.drop_succ_cons, List.drop_zero]
    conv_lhs => rw [← h3]
    simp [List.append_assoc]

theorem findCP_rewrite_none (name : Str) (h : findCopyPattern name = none) :
    findCopyPattern (rewriteName name) =
      some (stemOf name ++ [' '], ['2'], str ".pdf") := by
  obtain ⟨t, hpre⟩ := stemOf_prefix name
  have hn : findCopyPattern (stemOf name ++ t) = none := by
    rw [← hpre]
    exact h
  have h2 : findCopyPattern (stemOf name ++ [' ', '(']) = none := by
    refine findCP_append_none _ t [' ', '('] hn (by decide) ?_
    intro c r hcr
    injection hcr with hc1 hc2
    subst hc1
    exact ⟨by decide, by decide⟩
  have hpp : findCopyPattern ((stemOf name ++ [' ']) ++ ['(']) = none := by
    rw [List.append_assoc]
    simpa using h2
  have hassoc : stemOf name ++ str " (2).pdf" =
      (stemOf name ++ [' ']) ++ '(' :: (['2'] ++ ')' :: str ".pdf") := by
    have hs : str " (2).pdf" = [' '] ++ '(' :: (['2'] ++ ')' :: str ".pdf") := by decide
    rw [hs, ← List.append_assoc]
  unfold rewriteName
  rw [h, hassoc]
  exact findCP_complete _ _ _ hpp (by simp) (by decide)

theorem findCP_rewrite_some (name pre ds suf : Str)
    (h : findCopyPattern name = some (pre, ds, suf)) :
    findCopyPattern (rewriteName name) =
      some (pre, natToDigits (parseDigits ds + 1), suf) := by
  have hred : rewriteName name =
      pre ++ '(' :: (natToDigits (parseDigits ds + 1) ++ ')' :: suf) := by
    unfold rewriteName
    rw [h]
    simp
  rw [hred]
  exact findCP_complete pre _ suf (findCP_pre_paren_none name pre ds suf h)
    (natToDigits_ne_nil _) (natToDigits_all_dig _)

theorem numberOf_rewrite_gt (name : Str) :
    numberOf name < numberOf (rewriteName name) := by
  unfold numberOf
  cases h : findCopyPattern name with
  | none =>
    rw [findCP_rewrite_none name h]
    simp [parseDigits]
  | some v =>
    rcases v with ⟨pre, ds, suf⟩
    rw [findCP_rewrite_some name pre ds suf h]
    simp only []
    rw [parseDigits_natToDigits]
    omega

theorem maxPathLen_cons (e : Entry) (t : FS) :
    maxPathLen (e :: t) = max e.path.length (maxPathLen t) := rfl

theorem checkPath_length_le (fs : FS) (p : Str) (h : checkPath fs p = true) :
    p.length ≤ maxPathLen fs := by
  induction fs with
  | nil => simp [checkPath] at h
  | cons e t ih =>
    rw [maxPathLen_cons]
    unfold checkPath at h
    simp only [List.any_cons, Bool.or_eq_true, decide_eq_true_eq] at h
    rcases h with h | h
    · rw [← h]
      exact le_max_left _ _
    · exact le_trans (ih h) (le_max_right _ _)

theorem numberOf_lt_of_checkPath (fs : FS) (folder n : Str)
    (h : checkPath fs (pathJoin folder n) = true) :
    numberOf n < 10 ^ (maxPathLen fs + 1) := by
  unfold numberOf
  cases hf : findCopyPattern n with
  | none => exact pow_pos (by omega) _
  | some v =>
    rcases v with ⟨pre, ds, suf⟩
    obtain ⟨hshape, _, hdig⟩ := findCP_sound n pre ds suf hf
    have hlen : ds.length ≤ n.length := by
      rw [hshape]
      simp [List.length_append]
      omega
    have hmem : (pathJoin folder n).length ≤ maxPathLen fs := checkPath_length_le fs _ h
    have hnl : n.length < (pathJoin folder n).length := by
      simp [pathJoin, List.length_append]
      omega
    calc parseDigits ds < 10 ^ ds.length := parseDigits_lt ds hdig
      _ ≤ 10 ^ (maxPathLen fs + 1) := Nat.pow_le_pow_right (by omega) (by omega)

/-- The do-while loop of `_checkInvoiceFileName` (lines 222-233): rewrite
the name, then repeat while the folder still contains a file at the new
name's path.  It terminates because each rewrite strictly increases the
number inside the copy indicator, and numbers of names present in the
finite filesystem are bounded. -/
def resolveLoop (fs : FS) (folderPath invoiceName : Str) : Str :=
  if h : checkPath fs (pathJoin folderPath (rewriteName invoiceName)) = true then
    resolveLoop fs folderPath (rewriteName invoiceName)
  else rewriteName invoiceName
termination_by 10 ^ (maxPathLen fs + 1) - numberOf invoiceName
decreasing_by
  have h1 := numberOf_rewrite_gt invoiceName
  have h2 := numberOf_lt_of_checkPath fs folderPath (rewriteName invoiceName) h
  omega

/-- `_checkInvoiceFileName` (lines 211-241): if the desired name is free
in the folder, return it unchanged; otherwise run the renaming loop.
Returns the JS `[newInvoicePath, invoiceName]` pair. -/
def checkInvoiceFileName (fs : FS) (folderPath invoiceName : Str) : Str × Str :=
  if ¬ checkPath fs (pathJoin folderPath invoiceName) = true then
    (pathJoin folderPath invoiceName, invoiceName)
  else
    (pathJoin folderPath (resolveLoop fs folderPath invoiceName),
     resolveLoop fs folderPath invoiceName)

theorem resolveLoop_free (fs : FS) (folderPath invoiceName : Str) :
    checkPath fs (pathJoin folderPath (resolveLoop fs folderPath invoiceName)) = false := by
  induction invoiceName using resolveLoop.induct fs folderPath with
  | case1 name h ih =>
    rw [resolveLoop.eq_def, dif_pos h]
    exact ih
  | case2 name h =>
    rw [resolveLoop.eq_def, dif_neg h]
    simpa using h

/-- C4: the collision resolver leaves free names unchanged, and for a
name already present in the folder it returns a different name that is
free in the folder (the returned path being the folder path joined with
that name). -/
theorem checkInvoiceFileName_spec (fs : FS) (folderPath n : Str) :
    (checkPath fs (pathJoin folderPath n) = false →
      checkInvoiceFileName fs folderPath n = (pathJoin folderPath n, n)) ∧
    (checkPath fs (pathJoin folderPath n) = true →
      checkPath fs (pathJoin folderPath (checkInvoiceFileName fs folderPath n).2) = false ∧
      (checkInvoiceFileName fs folderPath n).2 ≠ n ∧
      (checkInvoiceFileName fs folderPath n).1 =
        pathJoin folderPath (checkInvoiceFileName fs folderPath n).2) := by
  constructor
  · intro h
    unfold checkInvoiceFileName
    rw [if_pos (by simp [h])]
  · intro h
    unfold checkInvoiceFileName
    rw [if_neg (by simp [h])]
    refine ⟨resolveLoop_free fs folderPath n, ?_, rfl⟩
    intro heq
    have heq2 : resolveLoop fs folderPath n = n := heq
    have hfree := resolveLoop_free fs folderPath n
    rw [heq2, h] at hfree
    exact Bool.noConfusion hfree

/-- A folder already holding `F/a.pdf`, used by concrete witnesses. -/
def fsA : FS := [{ path := str "F/a.pdf", isFile := true }]

/-- Witness for `checkInvoiceFileName_spec`: in a folder containing
`a.pdf`, resolving `a.pdf` yields a different, free name. -/
theorem checkInvoiceFileName_spec_witness :
    checkPath fsA (pathJoin (str "F") (str "a.pdf")) = true ∧
    (checkPath fsA (pathJoin (str "F") (checkInvoiceFileName fsA (str "F") (str "a.pdf")).2) = false ∧
     (checkInvoiceFileName fsA (str "F") (str "a.pdf")).2 ≠ str "a.pdf" ∧
     (checkInvoiceFileName fsA (str "F") (str "a.pdf")).1 =
       pathJoin (str "F") (checkInvoiceFileName fsA (str "F") (str "a.pdf")).2) :=
  ⟨by decide, (checkInvoiceFileName_spec fsA (str "F") (str "a.pdf")).2 (by decide)⟩

/-! ## Repeated collision resolution (C5 scenario) -/

/-- The k-th synthesized collision name for a base name:
`<stem> (k).pdf`. -/
def synthName (base : Str) (k : Nat) : Str :=
  (stemOf base ++ [' ']) ++ '(' :: (natToDigits k ++ ')' :: str ".pdf")

theorem stem_paren_none (base : Str) (hb : findCopyPattern base = none) :
    findCopyPattern ((stemOf base ++ [' ']) ++ ['(']) = none := by
  obtain ⟨t, hpre⟩ := stemOf_prefix base
  have hn : findCopyPattern (stemOf base ++ t) = none := by
    rw [← hpre]
    exact hb
  have h2 : findCopyPattern (stemOf base ++ [' ', '(']) = none := by
    refine findCP_append_none _ t [' ', '('] hn (by decide) ?_
    intro c r hcr
    injection hcr with hc1 hc2
    subst hc1
    exact ⟨by decide, by decide⟩
  rw [List.append_assoc]
  simpa using h2

theorem findCP_synthName (base : Str) (hb : findCopyPattern base = none) (k : Nat) :
    findCopyPattern (synthName base k) =
      some (stemOf base ++ [' '], natToDigits k, str ".pdf") :=
  findCP_complete _ _ _ (stem_paren_none base hb) (natToDigits_ne_nil _)
    (natToDigits_all_dig _)

theorem rewriteName_base (base : Str) (hb : findCopyPattern base = none) :
    rewriteName base = synthName base 2 := by
  unfold rewriteName
  rw [hb]
  have hs : str " (2).pdf" = [' '] ++ '(' :: (natToDigits 2 ++ ')' :: str ".pdf") := by
    decide
  unfold synthName
  rw [hs, ← List.append_assoc]

theorem rewriteName_synthName (base : Str) (hb : findCopyPattern base = none) (k : Nat) :
    rewriteName (synthName base k) = synthName base (k + 1) := by
  have hred : rewriteName (synthName base k) =
      (stemOf base ++ [' ']) ++
        '(' :: (natToDigits (parseDigits (natToDigits k) + 1) ++ ')' :: str ".pdf") := by
    unfold rewriteName
    rw [findCP_synthName base hb k]
    simp
  rw [hred, parseDigits_natToDigits]
  rfl

theorem synthName_ne_base (base : Str) (hb : findCopyPattern base = none) (k : Nat) :
    synthName base k ≠ base := by
  intro h
  have hcp := findCP_synthName base hb k
  rw [h, hb] at hcp
  exact Option.noConfusion hcp

theorem synthName_inj (base : Str) (hb : findCopyPattern base = none) {j k : Nat}
    (h : synthName base j = synthName base k) : j = k := by
  have h1 := findCP_synthName base hb j
  rw [h, findCP_synthName base hb k] at h1
  simp only [Option.some.injEq, Prod.mk.injEq] at h1
  have h3 := congrArg parseDigits h1.2.1
  rw [parseDigits_natToDigits, parseDigits_natToDigits] at h3
  exact h3.symm

theorem pathJoin_inj (dir a b : Str) (h : pathJoin dir a = pathJoin dir b) : a = b := by
  unfold pathJoin at h
  have h2 := List.append_cancel_left h
  injection h2

/-- Behaviour of the renaming loop over a block of materialized collision
names: starting from a name whose rewrite is `<stem> (j).pdf`, with
`(j) .. (j+gap-1)` all taken and `(j+gap)` free, the loop stops exactly
at `<stem> (j+gap).pdf`. -/
theorem resolveLoop_synth (base : Str) (hb : findCopyPattern base = none)
    (fs : FS) (folder : Str) :
    ∀ gap j name, 2 ≤ j →
      rewriteName name = synthName base j →
      (∀ i, j ≤ i → i < j + gap →
        checkPath fs (pathJoin folder (synthName base i)) = true) →
      checkPath fs (pathJoin folder (synthName base (j + gap))) = false →
      resolveLoop fs folder name = synthName base (j + gap) := by
  intro gap
  induction gap with
  | zero =>
    intro j name hj hrw hmem hstop
    rw [Nat.add_zero] at hstop ⊢
    rw [resolveLoop.eq_def, hrw, dif_neg (by simp [hstop])]
  | succ gap ih =>
    intro j name hj hrw hmem hstop
    have hmemj : checkPath fs (pathJoin folder (synthName base j)) = true :=
      hmem j le_rfl (by omega)
    rw [resolveLoop.eq_def, hrw, dif_pos hmemj]
    have hrw2 := rewriteName_synthName base hb j
    have hidx : j + 1 + gap = j + (gap + 1) := by omega
    have hres := ih (j + 1) (synthName base j) (by omega) hrw2
      (fun i hi1 hi2 => hmem i (by omega) (by omega))
      (by rw [hidx]; exact hstop)
    rw [hres, hidx]

/-- One resolve-then-materialize step of the C5 scenario: resolve the
base name in the folder, then create a file under the resolved name. -/
def resolveStep (folder base : Str) (fs : FS) : Str × FS :=
  ((checkInvoiceFileName fs folder base).2,
   { path := pathJoin folder (checkInvoiceFileName fs folder base).2,
     isFile := true } :: fs)

/-- The C5 scenario: repeatedly resolve the same base name, materializing
each result before the next resolution.  Index `k` is the (k+1)-th call. -/
def resolveSeq (folder base : Str) (fs : FS) : Nat → Str × FS
  | 0 => resolveStep folder base fs
  | k + 1 => resolveStep folder base (resolveSeq folder base fs k).2

/-- C5: resolving a base name (one without a copy indicator) repeatedly
in the same folder, materializing each result before the next
resolution, yields `<stem> (2).pdf`, `<stem> (3).pdf`, `<stem> (4).pdf`,
... in strictly increasing order, and every synthesized name carries the
fixed `.pdf` extension. -/
theorem resolveSeq_monotone (fs0 : FS) (folder base : Str)
    (hb : findCopyPattern base = none)
    (h0 : checkPath fs0 (pathJoin folder base) = false)
    (hfree : ∀ i, 2 ≤ i → checkPath fs0 (pathJoin folder (synthName base i)) = false) :
    (resolveSeq folder base fs0 0).1 = base ∧
    (∀ k, (resolveSeq folder base fs0 (k + 1)).1 = synthName base (k + 2)) ∧
    (∀ k, ∃ t, synthName base k = t ++ str ".pdf") := by
  have main : ∀ k,
      ((resolveSeq folder base fs0 k).1 =
        (if k = 0 then base else synthName base (k + 1))) ∧
      (∀ p, checkPath (resolveSeq folder base fs0 k).2 p = true ↔
        (checkPath fs0 p = true ∨ p = pathJoin folder base ∨
         ∃ i, 2 ≤ i ∧ i ≤ k + 1 ∧ p = pathJoin folder (synthName base i))) := by
    intro k
    induction k with
    | zero =>
      have hr := (checkInvoiceFileName_spec fs0 folder base).1 h0
      constructor
      · show (checkInvoiceFileName fs0 folder base).2 = _
        rw [hr]
        rfl
      · intro p
        show checkPath
          ({ path := pathJoin folder (checkInvoiceFileName fs0 folder base).2,
             isFile := true, content := [] } :: fs0) p = true ↔ _
        rw [hr, checkPath_cons]
        simp only [decide_eq_true_eq, Bool.or_eq_true]
        constructor
        · rintro (hp | hp)
          · exact Or.inr (Or.inl hp.symm)
          · exact Or.inl hp
        · rintro (hp | hp | ⟨i, hi1, hi2, hi3⟩)
          · exact Or.inr hp
          · exact Or.inl hp.symm
          · omega
    | succ k ih =>
      have hbase_mem : checkPath (resolveSeq folder base fs0 k).2
          (pathJoin folder base) = true :=
        (ih.2 _).mpr (Or.inr (Or.inl rfl))
      have hsynth_mem : ∀ i, 2 ≤ i → i ≤ k + 1 →
          checkPath (resolveSeq folder base fs0 k).2
            (pathJoin folder (synthName base i)) = true :=
        fun i h1 h2 => (ih.2 _).mpr (Or.inr (Or.inr ⟨i, h1, h2, rfl⟩))
      have hstop : checkPath (resolveSeq folder base fs0 k).2
          (pathJoin folder (synthName base (k + 2))) = false := by
        cases hx : checkPath (resolveSeq folder base fs0 k).2
            (pathJoin folder (synthName base (k + 2))) with
        | false => rfl
        | true =>
          rcases (ih.2 _).mp hx with h1 | h2 | ⟨i, hi1, hi2, hi3⟩
          · have hfr := hfree (k + 2) (by omega)
            rw [h1] at hfr
            exact Bool.noConfusion hfr
          · exact absurd (pathJoin_inj _ _ _ h2) (synthName_ne_base base hb (k + 2))
          · have hsi := synthName_inj base hb (pathJoin_inj _ _ _ hi3)
            omega
      have hloop : resolveLoop (resolveSeq folder base fs0 k).2 folder base =
          synthName base (k + 2) := by
        have hres := resolveLoop_synth base hb (resolveSeq folder base fs0 k).2 folder
          k 2 base (by omega) (rewriteName_base base hb)
          (fun i hi1 hi2 => hsynth_mem i hi1 (by omega))
          (by rw [Nat.add_comm 2 k]; exact hstop)
        rw [Nat.add_comm 2 k] at hres
        exact hres
      have hcif : (checkInvoiceFileName (resolveSeq folder base fs0 k).2 folder base).2 =
          synthName base (k + 2) := by
        unfold checkInvoiceFileName
        rw [if_neg (by simp [hbase_mem])]
        exact hloop
      constructor
      · show (checkInvoiceFileName (resolveSeq folder base fs0 k).2 folder base).2 = _
        rw [hcif]
        simp
      · intro p
        show checkPath
          ({ path := pathJoin folder
               (checkInvoiceFileName (resolveSeq folder base fs0 k).2 folder base).2,
             isFile := true, content := [] } :: (resolveSeq folder base fs0 k).2) p =
            true ↔ _
        rw [hcif, checkPath_cons]
        simp only [decide_eq_true_eq, Bool.or_eq_true]
        constructor
        · rintro (hp | hp)
          · exact Or.inr (Or.inr ⟨k + 2, by omega, by omega, hp.symm⟩)
          · rcases (ih.2 p).mp hp with h1 | h2 | ⟨i, hi1, hi2, hi3⟩
            · exact Or.inl h1
            · exact Or.inr (Or.inl h2)
            · exact Or.inr (Or.inr ⟨i, hi1, by omega, hi3⟩)
        · rintro (hp | hp | ⟨i, hi1, hi2, hi3⟩)
          · exact Or.inr ((ih.2 p).mpr (Or.inl hp))
          · exact Or.inr ((ih.2 p).mpr (Or.inr (Or.inl hp)))
          · by_cases hik : i = k + 2
            · subst hik
              exact Or.inl hi3.symm
            · exact Or.inr ((ih.2 p).mpr (Or.inr (Or.inr ⟨i, hi1, by omega, hi3⟩)))
  refine ⟨?_, ?_, ?_⟩
  · have := (main 0).1
    simpa using this
  · intro k
    have := (main (k + 1)).1
    simpa using this
  · intro k
    refine ⟨(stemOf base ++ [' ']) ++ '(' :: (natToDigits k ++ [')']), ?_⟩
    unfold synthName
    simp [List.append_assoc]

/-- Witness for `resolveSeq_monotone`: starting from an empty folder,
the first call returns `a.pdf` and the next calls return `a (2).pdf` and
`a (3).pdf`. -/
theorem resolveSeq_monotone_witness :
    findCopyPattern (str "a.pdf") = none ∧
    checkPath ([] : FS) (pathJoin (str "F") (str "a.pdf")) = false ∧
    (resolveSeq (str "F") (str "a.pdf") [] 0).1 = str "a.pdf" ∧
    (resolveSeq (str "F") (str "a.pdf") [] 1).1 = synthName (str "a.pdf") 2 ∧
    (resolveSeq (str "F") (str "a.pdf") [] 2).1 = synthName (str "a.pdf") 3 := by
  have h := resolveSeq_monotone [] (str "F") (str "a.pdf") (by decide) rfl
    (fun i _ => rfl)
  exact ⟨by decide, rfl, h.1, h.2.1 0, h.2.1 1⟩

/-! ## Topology initializer (`_validateLetterFolders`, lines 61-80) -/

/-- The alphabet of `_validateLetterFolders` (line 63). -/
def alphabetArray : Str := str "ABCDEFGHIJKLMNOPQRSTUVWXYZ"

/-- The 26 letter-folder paths, in alphabetical order (line 64). -/
def letterFolderPaths (directoriesFolderPath : Str) : List Str :=
  alphabetArray.map fun letter => pathJoin directoriesFolderPath [letter]

/-- `_validatePaths` (lines 104-116): `[true, null]` when every path in
the array exists, else `[false, firstInvalidPath]` (the throw of the
first invalid path is caught and its message returned). -/
def validatePaths (fs : FS) : List Str → Bool × Option Str
  | [] => (true, none)
  | p :: rest =>
    if ¬ checkPath fs p then (false, some p)
    else validatePaths fs rest

theorem validatePaths_true_iff (fs : FS) (paths : List Str) :
    validatePaths fs paths = (true, none) ↔ ∀ p ∈ paths, checkPath fs p = true := by
  induction paths with
  | nil => simp [validatePaths]
  | cons q rest ih =>
    by_cases hq : checkPath fs q <;> simp [validatePaths, hq, ih]

theorem validatePaths_false_some (fs : FS) (paths : List Str) (p : Str)
    (h : validatePaths fs paths = (false, some p)) :
    checkPath fs p = false ∧
    ∃ pre suf, paths = pre ++ p :: suf ∧ ∀ q ∈ pre, checkPath fs q = true := by
  induction paths with
  | nil => simp [validatePaths] at h
  | cons q rest ih =>
    by_cases hq : checkPath fs q
    · rw [show validatePaths fs (q :: rest) = validatePaths fs rest from by
        simp [validatePaths, hq]] at h
      obtain ⟨hmiss, pre, suf, hsplit, hpre⟩ := ih h
      refine ⟨hmiss, q :: pre, suf, by rw [hsplit]; rfl, ?_⟩
      intro x hx
      rcases List.mem_cons.mp hx with rfl | hx
      · exact hq
      · exact hpre x hx
    · rw [show validatePaths fs (q :: rest) = (false, some q) from by
        simp [validatePaths, hq]] at h
      simp only [Prod.mk.injEq, Option.some.injEq] at h
      obtain ⟨-, rfl⟩ := h
      exact ⟨by simpa using hq, [], rest, rfl, by simp⟩

theorem validatePaths_not_false_none (fs : FS) (paths : List Str) :
    validatePaths fs paths ≠ (false, none) := by
  induction paths with
  | nil => simp [validatePaths]
  | cons q rest ih =>
    by_cases hq : checkPath fs q <;> simp [validatePaths, hq, ih]

/-- Number of paths in `paths` missing from `fs`: the termination
measure of the letter-folder creation loop. -/
def missingCount (fs : FS) (paths : List Str) : Nat :=
  (paths.filter fun p => !(checkPath fs p)).length

theorem checkPath_cons_of_checkPath (e : Entry) (fs : FS) (q : Str)
    (h : checkPath fs q = true) : checkPath (e :: fs) q = true := by
  rw [checkPath_cons, h]
  simp

theorem missingCount_le (fs : FS) (e : Entry) (paths : List Str) :
    missingCount (e :: fs) paths ≤ missingCount fs paths := by
  induction paths with
  | nil => simp [missingCount]
  | cons q rest ih =>
    unfold missingCount at ih ⊢
    simp only [List.filter_cons]
    by_cases h2 : checkPath (e :: fs) q
    · by_cases h1 : checkPath fs q <;> simp [h1, h2] <;> omega
    · have h1 : checkPath fs q = false := by
        cases hq : checkPath fs q
        · rfl
        · exact absurd (checkPath_cons_of_checkPath e fs q hq) h2
      have h2f : checkPath (e :: fs) q = false := by
        cases hq : checkPath (e :: fs) q
        · rfl
        · exact absurd hq h2
      simp [h1, h2f]
      omega

theorem missingCount_insert_lt (fs : FS) (paths : List Str) (p : Str) (e : Entry)
    (hep : e.path = p) (hmem : p ∈ paths) (hmiss : checkPath fs p = false) :
    missingCount (e :: fs) paths < missingCount fs paths := by
  induction paths with
  | nil => cases hmem
  | cons q rest ih =>
    unfold missingCount
    simp only [List.filter_cons]
    rcases List.mem_cons.mp hmem with heq | hmem'
    · subst heq
      have hafter : checkPath (e :: fs) p = true := by
        rw [checkPath_cons, hep]
        simp
      have hle := missingCount_le fs e rest
      unfold missingCount at hle
      simp [hafter, hmiss]
      omega
    · have hlt := ih hmem'
      unfold missingCount at hlt
      by_cases h2 : checkPath (e :: fs) q
      · by_cases h1 : checkPath fs q <;> simp [h1, h2] <;> omega
      · have h1 : checkPath fs q = false := by
          cases hq : checkPath fs q
          · rfl
          · exact absurd (checkPath_cons_of_checkPath e fs q hq) h2
        have h2f : checkPath (e :: fs) q = false := by
          cases hq : checkPath (e :: fs) q
          · rfl
          · exact absurd hq h2
        simp [h1, h2f]
        omega

/-- The success message of `_validateLetterFolders` (line 76). -/
def readyMsg (name : Str) : Str :=
  str "All Letter Folders are initialized for " ++ name ++ str "."

/-- The do-while of `_validateLetterFolders` (lines 68-74): validate all
paths; when the first missing one is found, create it (`fs.mkdir`; an
injected rejection is caught and turned into `[false, message]`), then
re-validate the whole set from scratch.  Returns the `[ok, message]`
pair, the filesystem after the call, and the folders created, in
creation order.  (The guard `if (hasFolderCreationFailed) throw ...` on
line 72 tests `undefined` and cannot fire.) -/
def letterLoop (env : SysEnv) (name : Str) (paths : List Str) (fs : FS) :
    (Bool × Str) × FS × List Str :=
  match hv : validatePaths fs paths with
  | (true, _) => ((true, readyMsg name), fs, [])
  | (false, some p) =>
    match env.mkdirErr p with
    | some e => ((false, e.message), fs, [])
    | none =>
      let r := letterLoop env name paths ({ path := p, isFile := false } :: fs)
      (r.1, r.2.1, p :: r.2.2)
  | (false, none) =>
    -- unreachable: `validatePaths` never returns `[false, null]`
    -- (`validatePaths_not_false_none`)
    ((false, str ""), fs, [])
termination_by missingCount fs paths
decreasing_by
  obtain ⟨hmiss, pre, suf, hsplit, _⟩ := validatePaths_false_some fs paths p hv
  exact missingCount_insert_lt fs paths p _ rfl (by rw [hsplit]; simp) hmiss

/-- `_validateLetterFolders` (lines 61-80) for one namespace. -/
def validateLetterFolders (env : SysEnv) (fsys : FSys) (fs : FS) :
    (Bool × Str) × FS × List Str :=
  letterLoop env fsys.name (letterFolderPaths fsys.directoriesFolderPath) fs

theorem validatePaths_true_all (fs : FS) (paths : List Str) (o : Option Str)
    (h : validatePaths fs paths = (true, o)) : ∀ p ∈ paths, checkPath fs p = true := by
  induction paths with
  | nil => simp
  | cons q rest ih =>
    by_cases hq : checkPath fs q
    · rw [show validatePaths fs (q :: rest) = validatePaths fs rest from by
        simp [validatePaths, hq]] at h
      intro p hp
      rcases List.mem_cons.mp hp with rfl | hp
      · exact hq
      · exact ih h p hp
    · rw [show validatePaths fs (q :: rest) = (false, some q) from by
        simp [validatePaths, hq]] at h
      simp at h

theorem letterLoop_eq_complete (env : SysEnv) (name : Str) (paths : List Str)
    (fs : FS) (o : Option Str) (hv : validatePaths fs paths = (true, o)) :
    letterLoop env name paths fs = ((true, readyMsg name), fs, []) := by
  rw [letterLoop.eq_def]
  split
  · rfl
  · next p heq =>
    rw [hv] at heq
    simp at heq
  · next heq =>
    rw [hv] at heq
    simp at heq

theorem letterLoop_eq_mkdir_fail (env : SysEnv) (name : Str) (paths : List Str)
    (fs : FS) (p : Str) (e : JsError)
    (hv : validatePaths fs paths = (false, some p)) (hm : env.mkdirErr p = some e) :
    letterLoop env name paths fs = ((false, e.message), fs, []) := by
  rw [letterLoop.eq_def]
  split
  · next o heq =>
    rw [hv] at heq
    simp at heq
  · next p' heq =>
    rw [hv] at heq
    simp only [Prod.mk.injEq, Option.some.injEq] at heq
    obtain ⟨-, rfl⟩ := heq
    rw [hm]
  · next heq =>
    rw [hv] at heq
    simp at heq

theorem letterLoop_eq_step (env : SysEnv) (name : Str) (paths : List Str)
    (fs : FS) (p : Str)
    (hv : validatePaths fs paths = (false, some p)) (hm : env.mkdirErr p = none) :
    letterLoop env name paths fs =
      ((letterLoop env name paths ({ path := p, isFile := false } :: fs)).1,
       (letterLoop env name paths ({ path := p, isFile := false } :: fs)).2.1,
       p :: (letterLoop env name paths ({ path := p, isFile := false } :: fs)).2.2) := by
  rw [letterLoop.eq_def]
  split
  · next o heq =>
    rw [hv] at heq
    simp at heq
  · next p' heq =>
    rw [hv] at heq
    simp only [Prod.mk.injEq, Option.some.injEq] at heq
    obtain ⟨-, rfl⟩ := heq
    rw [hm]
  · next heq =>
    rw [hv] at heq
    simp at heq

theorem missingCount_zero_all (fs : FS) (paths : List Str)
    (h : missingCount fs paths = 0) : ∀ p ∈ paths, checkPath fs p = true := by
  unfold missingCount at h
  rw [List.length_eq_zero] at h
  intro p hp
  cases hc : checkPath fs p
  · exact absurd h (by
      apply List.ne_nil_of_mem
      rw [List.mem_filter]
      exact ⟨hp, by simp [hc]⟩)
  · rfl

theorem filter_missing_step (fs : FS) (paths : List Str) (p : Str)
    (hnd : paths.Nodup) (hv : validatePaths fs paths = (false, some p)) :
    paths.filter (fun q => !(checkPath fs q)) =
      p :: paths.filter
        (fun q => !(checkPath ({ path := p, isFile := false } :: fs) q)) := by
  obtain ⟨hmiss, pre, suf, hsplit, hpre⟩ := validatePaths_false_some fs paths p hv
  subst hsplit
  have hpns : p ∉ suf := by
    have h2 := (List.nodup_append.mp hnd).2.1
    exact (List.nodup_cons.mp h2).1
  have hpresent : checkPath ({ path := p, isFile := false } :: fs) p = true := by
    rw [checkPath_cons]
    simp
  have hLpre : pre.filter (fun q => !(checkPath fs q)) = [] := by
    rw [List.filter_eq_nil_iff]
    intro q hq
    simp [hpre q hq]
  have hRpre : pre.filter
      (fun q => !(checkPath ({ path := p, isFile := false } :: fs) q)) = [] := by
    rw [List.filter_eq_nil_iff]
    intro q hq
    simp [checkPath_cons_of_checkPath _ fs q (hpre q hq)]
  have hsufeq : suf.filter
      (fun q => !(checkPath ({ path := p, isFile := false } :: fs) q)) =
      suf.filter (fun q => !(checkPath fs q)) := by
    apply List.filter_congr
    intro q hq
    have hqp : ¬(p = q) := fun h => hpns (h ▸ hq)
    rw [checkPath_cons]
    simp [hqp]
  simp [List.filter_append, List.filter_cons, hLpre, hRpre, hsufeq, hmiss, hpresent]

theorem letterLoop_no_failure (env : SysEnv) (name : Str) (paths : List Str)
    (hnd : paths.Nodup) (henv : ∀ p, env.mkdirErr p = none) :
    ∀ fs, (letterLoop env name paths fs).1 = (true, readyMsg name) ∧
      (∀ p ∈ paths, checkPath (letterLoop env name paths fs).2.1 p = true) ∧
      (letterLoop env name paths fs).2.2 =
        paths.filter fun p => !(checkPath fs p) := by
  have H : ∀ n fs, missingCount fs paths ≤ n →
      (letterLoop env name paths fs).1 = (true, readyMsg name) ∧
      (∀ p ∈ paths, checkPath (letterLoop env name paths fs).2.1 p = true) ∧
      (letterLoop env name paths fs).2.2 =
        paths.filter fun p => !(checkPath fs p) := by
    intro n
    induction n with
    | zero =>
      intro fs hle
      have hall := missingCount_zero_all fs paths (by omega)
      have hv := (validatePaths_true_iff fs paths).mpr hall
      rw [letterLoop_eq_complete env name paths fs none hv]
      refine ⟨rfl, fun p hp => hall p hp, ?_⟩
      rw [eq_comm, List.filter_eq_nil_iff]
      intro q hq
      simp [hall q hq]
    | succ n ih =>
      intro fs hle
      cases hv : validatePaths fs paths with
      | mk b o =>
        cases b with
        | true =>
          have hall := validatePaths_true_all fs paths o hv
          rw [letterLoop_eq_complete env name paths fs o hv]
          refine ⟨rfl, fun p hp => hall p hp, ?_⟩
          rw [eq_comm, List.filter_eq_nil_iff]
          intro q hq
          simp [hall q hq]
        | false =>
          cases o with
          | none => exact absurd hv (validatePaths_not_false_none fs paths)
          | some p =>
            have hstep := letterLoop_eq_step env name paths fs p hv (henv p)
            have hlt : missingCount ({ path := p, isFile := false } :: fs) paths ≤ n := by
              obtain ⟨hmiss, pre, suf, hsplit, -⟩ :=
                validatePaths_false_some fs paths p hv
              have := missingCount_insert_lt fs paths p
                { path := p, isFile := false } rfl (by rw [hsplit]; simp) hmiss
              omega
            obtain ⟨ih1, ih2, ih3⟩ := ih ({ path := p, isFile := false } :: fs) hlt
            rw [hstep]
            refine ⟨ih1, fun q hq => ih2 q hq, ?_⟩
            rw [filter_missing_step fs paths p hnd hv, ih3]
  intro fs
  exact H (missingCount fs paths) fs le_rfl

theorem letterFolderPaths_nodup (root : Str) : (letterFolderPaths root).Nodup := by
  unfold letterFolderPaths
  refine List.Nodup.map ?_ (by decide)
  intro a b hab
  have h1 := pathJoin_inj root [a] [b] hab
  injection h1

/-- C7: running the Topology Initializer against a root whose 26 letter
buckets all exist makes no filesystem changes, creates nothing, and
reports ready - twice in a row (idempotence).  When buckets are missing
and folder creation succeeds, it creates exactly the missing buckets in
alphabetical order (the first created being the first missing) and ends
with all 26 present and a ready report; when the creation of the first
missing bucket fails, it stops and reports that failure. -/
theorem validateLetterFolders_spec (env : SysEnv) (fsys : FSys) (fs : FS) :
    ((∀ p ∈ letterFolderPaths fsys.directoriesFolderPath, checkPath fs p = true) →
      validateLetterFolders env fsys fs = ((true, readyMsg fsys.name), fs, []) ∧
      validateLetterFolders env fsys (validateLetterFolders env fsys fs).2.1 =
        ((true, readyMsg fsys.name), fs, [])) ∧
    ((∀ p, env.mkdirErr p = none) →
      (validateLetterFolders env fsys fs).1 = (true, readyMsg fsys.name) ∧
      (∀ p ∈ letterFolderPaths fsys.directoriesFolderPath,
        checkPath (validateLetterFolders env fsys fs).2.1 p = true) ∧
      (validateLetterFolders env fsys fs).2.2 =
        (letterFolderPaths fsys.directoriesFolderPath).filter
          fun p => !(checkPath fs p)) ∧
    (∀ p e, validatePaths fs (letterFolderPaths fsys.directoriesFolderPath) =
        (false, some p) →
      env.mkdirErr p = some e →
      validateLetterFolders env fsys fs = ((false, e.message), fs, [])) := by
  refine ⟨?_, ?_, ?_⟩
  · intro h
    have hv := (validatePaths_true_iff fs _).mpr h
    have h1 : validateLetterFolders env fsys fs = ((true, readyMsg fsys.name), fs, []) :=
      letterLoop_eq_complete env fsys.name _ fs none hv
    refine ⟨h1, ?_⟩
    rw [h1]
    exact h1
  · intro henv
    exact letterLoop_no_failure env fsys.name _
      (letterFolderPaths_nodup fsys.directoriesFolderPath) henv fs
  · intro p e hv hm
    exact letterLoop_eq_mkdir_fail env fsys.name _ fs p e hv hm

/-- A complete 26-bucket directory tree under root `d`, for witnesses. -/
def fs26 : FS := (letterFolderPaths (str "d")).map fun p => { path := p, isFile := false }

/-- A concrete namespace configuration for witnesses. -/
def fsysD : FSys :=
  { name := str "ns", invoiceFolderPath := str "inv", directoriesFolderPath := str "d" }

/-- Witness for `validateLetterFolders_spec`: with all 26 buckets present,
both runs are no-ops that create nothing and report ready. -/
theorem validateLetterFolders_spec_witness :
    (∀ p ∈ letterFolderPaths (str "d"), checkPath fs26 p = true) ∧
    (validateLetterFolders noFail fsysD fs26 = ((true, readyMsg (str "ns")), fs26, []) ∧
     validateLetterFolders noFail fsysD (validateLetterFolders noFail fsysD fs26).2.1 =
       ((true, readyMsg (str "ns")), fs26, [])) :=
  ⟨by decide, (validateLetterFolders_spec noFail fsysD fs26).1 (by decide)⟩

/-! ## Sort operation (`sortFile`, lines 243-297) -/

/-- `_checkForYearFolder` (lines 196-209): ensure the year folder exists
under the category folder, creating it when missing.  Returns
`[true, directoryYearPath]` on success and `[false, error.message]` when
`fs.mkdir` rejects (the guard on line 201 tests the resolved value
`undefined` and cannot fire), together with the filesystem after the
call. -/
def checkForYearFolder (env : SysEnv) (fs : FS) (directoryFolderPath year : Str) :
    (Bool × Str) × FS :=
  if ¬ checkPath fs (pathJoin directoryFolderPath year) = true then
    match env.mkdirErr (pathJoin directoryFolderPath year) with
    | some e => ((false, e.message), fs)
    | none =>
      ((true, pathJoin directoryFolderPath year),
       { path := pathJoin directoryFolderPath year, isFile := false } :: fs)
  else ((true, pathJoin directoryFolderPath year), fs)

/-- The query parameters of `sortFile` (line 245). -/
structure SortQuery where
  directoryFolderPath : Str
  directoryName : Str
  invoiceName : Str
  year : Str

/-- The undo record built by `sortFile` on success (line 270). -/
structure TransferUndoRec where
  oldInvoiceName : Str
  newInvoiceName : Str
  directoryFolderPath : Str
  directoryName : Str
  year : Str
deriving DecidableEq, Repr

/-- The message built by `sortFile`'s catch (lines 293-294): the generic
transfer-failed line, plus the rename note when `newInvoiceName` has
been assigned (is not `null`), is truthy (nonempty) and differs from the
invoice name. -/
def transferFailedMsg (invoiceName directoryName : Str)
    (newInvoiceName : Option Str) : Str :=
  let base := str "Transfer Failed - " ++ invoiceName ++
    str " failed to transfer to " ++ directoryName ++ str "."
  match newInvoiceName with
  | some nn =>
    if nn ≠ [] ∧ nn ≠ invoiceName then
      base ++ str "\nAttempted to rename " ++ invoiceName ++ str " to " ++ nn ++ str "."
    else base
  | none => base

/-- `sortFile` (lines 243-297).  The result is `some` of the returned
`[success, message, undoRecord?]` array, or `none` for the `undefined`
the function yields when `_moveFile` fails with a cause matched by no
case of the switch on lines 272-289 (then nothing in the try returns and
no error reaches the catch); paired with the filesystem after the call.
The specific messages thrown by the switch land in `sortFile`'s own
catch (line 291), which logs them and returns the generic
transfer-failed message instead. -/
def sortFile (env : SysEnv) (fsys : FSys) (fs : FS) (q : SortQuery) :
    Option (Bool × Str × Option TransferUndoRec) × FS :=
  match validatePaths fs
      [pathJoin fsys.directoriesFolderPath q.directoryFolderPath,
       pathJoin fsys.invoiceFolderPath q.invoiceName] with
  | (false, _) =>
    -- throw on line 256, caught on line 291; newInvoiceName is still null
    (some (false, transferFailedMsg q.invoiceName q.directoryName none, none), fs)
  | (true, _) =>
    match checkForYearFolder env fs
        (pathJoin fsys.directoriesFolderPath q.directoryFolderPath) q.year with
    | ((false, _), fs1) =>
      -- throw on line 261, caught on line 291; newInvoiceName is still null
      (some (false, transferFailedMsg q.invoiceName q.directoryName none, none), fs1)
    | ((true, yearPath), fs1) =>
      match moveFile env fs1 (pathJoin fsys.invoiceFolderPath q.invoiceName)
          (checkInvoiceFileName fs1 yearPath q.invoiceName).1 with
      | ((true, _), fs2, _) =>
        (some (true,
          str "Transfer Successful - " ++ (checkInvoiceFileName fs1 yearPath q.invoiceName).2 ++
            str " moved to " ++ q.directoryName ++ str ".",
          some { oldInvoiceName := q.invoiceName,
                 newInvoiceName := (checkInvoiceFileName fs1 yearPath q.invoiceName).2,
                 directoryFolderPath := q.directoryFolderPath,
                 directoryName := q.directoryName, year := q.year }), fs2)
      | ((false, cause), fs2, _) =>
        if cause = some (str "SourcePathInvalid") ∨
           cause = some (str "DestinationPathAlreadyInUse") ∨
           cause = some (str "failedToCopyFile") ∨
           cause = some (str "failedToDeleteFile") then
          -- a switch case throws its specific message, which the catch
          -- replaces with the generic one (plus the rename note)
          (some (false, transferFailedMsg q.invoiceName q.directoryName
            (some (checkInvoiceFileName fs1 yearPath q.invoiceName).2), none), fs2)
        else
          -- no case matches: the try block ends without returning: undefined
          (none, fs2)

/-- The environment, state and query of the C1 failing input: a valid
category folder, year folder and pending invoice, with the copy call
rejecting. -/
def fsC1 : FS :=
  [{ path := str "inv/a.pdf", isFile := true },
   { path := str "d/Acme", isFile := false },
   { path := str "d/Acme/2024", isFile := false }]

/-- The sort query of the C1 failing input. -/
def qC1 : SortQuery :=
  { directoryFolderPath := str "Acme", directoryName := str "Acme Inc",
    invoiceName := str "a.pdf", year := str "2024" }

/-- C1 (code_bug evidence): at a sortFile call whose Move Engine step
fails (a rejected copy), `sortFile` returns JS `undefined` - not
`(success=false, cause-specific message, undoRecord=null)`.  A
copy/delete failure reports the raw rejection message as its cause (see
`moveFile`), which matches no case of the switch on lines 272-289, so
the try block ends without returning; and the four cause-specific
messages the switch does build are thrown into `sortFile`'s own catch,
which replaces them with the generic transfer-failed message. -/
theorem sortFile_move_failure_returns_undefined :
    (sortFile envEIO fsysD fsC1 qC1).1 = none ∧
    str "EIO: i/o error" ≠ str "failedToCopyFile" := by decide

/-! ## Listing and fetch operations (`getAllDirectories`, `getInvoice`) -/

/-- Name of `e` as a direct child of directory `p`: its path is
`p/<name>` with no further slash. -/
def childName (p : Str) (e : Entry) : Option Str :=
  if ((p ++ ['/']).isPrefixOf e.path && !((e.path.drop (p.length + 1)).contains '/') &&
      !(e.path.drop (p.length + 1)).isEmpty) = true then
    some (e.path.drop (p.length + 1))
  else none

/-- Node `fs.readdir`: rejects when the path is missing (`ENOENT`) or a
regular file (`ENOTDIR`); otherwise the names of the entries directly
inside the directory, in filesystem order. -/
def readdir (fs : FS) (p : Str) : Except JsError (List Str) :=
  if ¬ checkPath fs p = true then
    .error { message := str "ENOENT: no such file or directory, scandir",
             code := some (str "ENOENT") }
  else if ((findEntry fs p).map Entry.isFile).getD false = true then
    .error { message := str "ENOTDIR: not a directory, scandir",
             code := some (str "ENOTDIR") }
  else .ok (fs.filterMap (childName p))

/-- The letter-folder loop of `getAllDirectories` (lines 150-156): skip
names longer than one character, list each remaining folder, and abort
on the first rejected listing. -/
def collectDirs (fs : FS) (root : Str) : List Str → Except JsError (List (List Str))
  | [] => .ok []
  | letter :: rest =>
    if letter.length > 1 then collectDirs fs root rest
    else
      match readdir fs (pathJoin root letter) with
      | .error e => .error e
      | .ok directoryContents =>
        match collectDirs fs root rest with
        | .error e => .error e
        | .ok acc => .ok (directoryContents :: acc)

/-- `getAllDirectories` (lines 143-163): the per-letter lists of
directory names.  Every failure is caught, logged, and the function then
returns `undefined` (modelled as `none`) - not a structured result. -/
def getAllDirectories (fs : FS) (fsys : FSys) : Option (List (List Str)) :=
  if ¬ checkPath fs fsys.directoriesFolderPath = true then none
  else
    match readdir fs fsys.directoriesFolderPath with
    | .error _ => none
    | .ok alphabetFolders =>
      match collectDirs fs fsys.directoriesFolderPath alphabetFolders with
      | .error _ => none
      | .ok allDirectories => some allDirectories

/-- The RFC 4648 base64 alphabet. -/
def b64Char (n : Nat) : Char :=
  (str "ABCDEFGHIJKLMNOPQRSTUVWXYZabcdefghijklmnopqrstuvwxyz0123456789+/").getD n 'A'

/-- `Buffer.prototype.toString('base64')` on a byte list. -/
def base64Encode : List Nat → Str
  | [] => []
  | [a] => [b64Char (a / 4), b64Char (a % 4 * 16), '=', '=']
  | [a, b] => [b64Char (a / 4), b64Char (a % 4 * 16 + b / 16), b64Char (b % 16 * 4), '=']
  | a :: b :: c :: rest =>
    b64Char (a / 4) :: b64Char (a % 4 * 16 + b / 16) :: b64Char (b % 16 * 4 + c / 64) ::
      b64Char (c % 64) :: base64Encode rest

/-- The do-while of `getInvoice` (lines 174-180): skip listed entries
that are not regular files; throw when the listing is exhausted. -/
def scanInvoices (fs : FS) (root : Str) : List Str → Except JsError (Str × Str)
  | [] => .error { message := str "No Valid Files Within Invoice Directory." }
  | name :: rest =>
    if ((findEntry fs (pathJoin root name)).map Entry.isFile).getD false = true then
      .ok (name, base64Encode (contentAt fs (pathJoin root name)))
    else scanInvoices fs root rest

/-- `getInvoice` (lines 165-194): the first regular file of the invoice
folder, with its base64-encoded bytes.  Its catch logs the error and
RETHROWS it (line 192), so every failure escapes the operation as an
exception (`Except.error`). -/
def getInvoice (fs : FS) (fsys : FSys) : Except JsError (Str × Str) :=
  match readdir fs fsys.invoiceFolderPath with
  | .error e => .error e
  | .ok invoiceFolder => scanInvoices fs fsys.invoiceFolderPath invoiceFolder

/-! ## Create-folder operation (`createNewFolder`, lines 299-322) -/

/-- The query parameters of `createNewFolder` (line 306). -/
structure FolderQuery where
  directoryFolderName : Str
  letterFolder : Str

/-- The undo record built by `createNewFolder` on success (line 316). -/
structure FolderUndoRec where
  directoryName : Str
  letterFolder : Str
deriving DecidableEq, Repr

/-- `createNewFolder` (lines 299-322): conflict when the path exists
(cause-specific message), generic failure when `fs.mkdir` rejects (the
guard on line 314 tests `undefined` and cannot fire), undo record on
success. -/
def createNewFolder (env : SysEnv) (fsys : FSys) (fs : FS) (q : FolderQuery) :
    (Bool × Str × Option FolderUndoRec) × FS :=
  if checkPath fs
      (pathJoin (pathJoin fsys.directoriesFolderPath q.letterFolder) q.directoryFolderName) =
      true then
    ((false, str "Initialization Failed - Directory " ++ q.directoryFolderName ++
      str " Already Exists!", none), fs)
  else
    match env.mkdirErr
        (pathJoin (pathJoin fsys.directoriesFolderPath q.letterFolder) q.directoryFolderName) with
    | some _ =>
      ((false, str "Initialization Failed - Failed to create " ++ q.directoryFolderName ++
        str " folder.", none), fs)
    | none =>
      ((true, str "Initialization Successful - Directory " ++ q.directoryFolderName ++
        str " Was Created.",
        some { directoryName := q.directoryFolderName, letterFolder := q.letterFolder }),
       { path := pathJoin (pathJoin fsys.directoriesFolderPath q.letterFolder)
           q.directoryFolderName, isFile := false } :: fs)

/-! ## Undo operation (`undoPreviousAction`, lines 324-400) -/

/-- The parsed `undoInfo` object.  A field read that is absent in the
parsed JSON yields JS `undefined` (`none`), rendered as the text
`undefined` when interpolated into a template string. -/
structure UndoInfo where
  directoryName : Option Str := none
  letterFolder : Option Str := none
  directoryFolderPath : Option Str := none
  year : Option Str := none
  newInvoiceName : Option Str := none
  oldInvoiceName : Option Str := none
  uniqueInvoiceName : Option Str := none
deriving DecidableEq, Repr

/-- JS template-string interpolation of a possibly-undefined value. -/
def jsShow : Option Str → Str
  | some s => s
  | none => str "undefined"

/-- Whether the directory at `p` still holds any entry. -/
def hasChild (fs : FS) (p : Str) : Bool :=
  fs.any fun e => (p ++ ['/']).isPrefixOf e.path

/-- Node `fs.rmdir`: `ENOENT` when the path is missing, `ENOTEMPTY` when
the directory still has entries, an injected rejection otherwise when
one is provided, else the directory is removed. -/
def rmdir (env : SysEnv) (fs : FS) (p : Str) : Except JsError FS :=
  if ¬ checkPath fs p = true then
    .error { message := str "ENOENT: no such file or directory, rmdir",
             code := some (str "ENOENT") }
  else if hasChild fs p = true then
    .error { message := str "ENOTEMPTY: directory not empty, rmdir",
             code := some (str "ENOTEMPTY") }
  else
    match env.rmdirErr p with
    | some e => .error e
    | none => .ok (removePath fs p)

/-- The catch of `undoPreviousAction` (lines 391-398): the generic
failure line; plus, when the error's Node code is `ENOTEMPTY`, a line
naming `undoInfoObj.directoryFolderPath` (which a folder-creation undo
record does not carry, so it prints as `undefined`); plus the error's
own message when it has no Node code. -/
def undoFailedMsg (action : Str) (u : UndoInfo) (e : JsError) : Str :=
  let base := str "Undo Action Failed - Failed to undo " ++ action ++ str "."
  let base2 :=
    if e.code = some (str "ENOTEMPTY") then
      base ++ str "\nFolder " ++ jsShow u.directoryFolderPath ++ str " is not empty."
    else base
  if e.code = none then base2 ++ str "\n" ++ e.message else base2

/-- The try/catch of `undoPreviousAction` (lines 328-399), after the
`undoInfo` parse succeeded.  Dispatch is on the string `action`:
folder-creation undo removes the recorded directory; file-transfer undo
moves the filed invoice back to the inbox under a collision-free name;
any other action falls through both branches to the success return on
line 390 with `finalTransferMessage` still `undefined`.  Every branch -
the catch included - returns a JS `[isSuccessful, message, actionId]`
triple (each of the last two possibly `undefined`); it is paired here
with the filesystem after the call. -/
def undoBody (env : SysEnv) (fsys : FSys) (fs : FS)
    (action actionId : Str) (u : UndoInfo) :
    (Bool × Option Str × Option Str) × FS :=
  if action = str "Folder Creation" then
      if ¬ checkPath fs
          (pathJoin (pathJoin fsys.directoriesFolderPath (jsShow u.letterFolder))
            (jsShow u.directoryName)) = true then
        -- throw on line 341 (cause 'invalidPath', no Node code)
        ((false, some (undoFailedMsg action u
          { message := str "Folder " ++ jsShow u.directoryName ++
              str " does not exists within the " ++ jsShow u.letterFolder ++
              str " directory.",
            cause := some (str "invalidPath") }), none), fs)
      else
        match rmdir env fs
            (pathJoin (pathJoin fsys.directoriesFolderPath (jsShow u.letterFolder))
              (jsShow u.directoryName)) with
        | .error e => ((false, some (undoFailedMsg action u e), none), fs)
        | .ok fs2 =>
          ((true, some (str "Undo Action Successful - " ++ action ++
            str " has successfully been undone. Directory " ++ jsShow u.directoryName ++
            str " has been successfully removed."), some actionId), fs2)
    else if action = str "File Transfer" then
      match moveFile env fs
          (pathJoin (pathJoin (pathJoin fsys.directoriesFolderPath
              (jsShow u.directoryFolderPath)) (jsShow u.year)) (jsShow u.newInvoiceName))
          (checkInvoiceFileName fs fsys.invoiceFolderPath
            (if u.newInvoiceName = u.oldInvoiceName then jsShow u.newInvoiceName
             else jsShow u.oldInvoiceName)).1 with
      | ((true, _), fs2, _) =>
        ((true, some (
          if (if u.newInvoiceName = u.oldInvoiceName then jsShow u.newInvoiceName
              else jsShow u.oldInvoiceName) ≠
             (checkInvoiceFileName fs fsys.invoiceFolderPath
               (if u.newInvoiceName = u.oldInvoiceName then jsShow u.newInvoiceName
                else jsShow u.oldInvoiceName)).2 then
            str "Undo Action Successful - " ++ action ++
              str " has successfully been undone. File " ++ jsShow u.newInvoiceName ++
              str " has been successfully removed from " ++ jsShow u.directoryName ++
              str "." ++ str "\nReturned invoice has been renamed from " ++
              (if u.newInvoiceName = u.oldInvoiceName then jsShow u.newInvoiceName
               else jsShow u.oldInvoiceName) ++ str " to " ++
              (checkInvoiceFileName fs fsys.invoiceFolderPath
                (if u.newInvoiceName = u.oldInvoiceName then jsShow u.newInvoiceName
                 else jsShow u.oldInvoiceName)).2 ++ str "."
          else
            str "Undo Action Successful - " ++ action ++
              str " has successfully been undone. File " ++ jsShow u.newInvoiceName ++
              str " has been successfully removed from " ++ jsShow u.directoryName ++
              str "."), some actionId), fs2)
      | ((false, cause), fs2, _) =>
        if cause = some (str "SourcePathInvalid") then
          ((false, some (undoFailedMsg action u
            { message := str "Invoice " ++ jsShow u.newInvoiceName ++
                str " was not found in directory " ++ jsShow u.directoryName ++ str "." }),
            none), fs2)
        else if cause = some (str "DestinationPathAlreadyInUse") then
          ((false, some (undoFailedMsg action u
            { message := str "Invoice directory already contains a " ++
                jsShow u.uniqueInvoiceName ++ str " invoice file." }), none), fs2)
        else if cause = some (str "failedToCopyFile") then
          ((false, some (undoFailedMsg action u
            { message := str "Failed to transfer invoice " ++ jsShow u.newInvoiceName ++
                str " back to invoice directory from " ++ jsShow u.directoryName ++
                str "." }), none), fs2)
        else if cause = some (str "failedToDeleteFile") then
          ((false, some (undoFailedMsg action u
            { message := str "Failed to delete invoice " ++ jsShow u.newInvoiceName ++
                str " from " ++ jsShow u.directoryName ++ str "." }), none), fs2)
        else
          -- no switch case matches: fall through to line 390 with
          -- finalTransferMessage still undefined, reported as success
          ((true, none, some actionId), fs2)
    else
      -- unknown action: neither branch runs; line 390 returns success
      -- with an undefined message and the echoed actionId
      ((true, none, some actionId), fs)

/-- `undoPreviousAction` (lines 324-400).  `JSON.parse(undoInfo)` runs on
line 326, BEFORE the try: a parse failure (the `Except.error` input)
escapes the operation uncaught; otherwise the try/catch body `undoBody`
produces the returned triple. -/
def undoPreviousAction (env : SysEnv) (fsys : FSys) (fs : FS)
    (action actionId : Str) (parsedUndoInfo : Except Str UndoInfo) :
    Except Str ((Bool × Option Str × Option Str) × FS) :=
  match parsedUndoInfo with
  | .error e => .error e
  | .ok u => .ok (undoBody env fsys fs action actionId u)

/-- C10: an `undoPreviousAction` call (with well-formed `undoInfo`)
whose action is neither `Folder Creation` nor `File Transfer` performs
no filesystem operation - the state is returned unchanged - and yields
success=true with an undefined message and the echoed `actionId`. -/
theorem undo_unknown_action (env : SysEnv) (fsys : FSys) (fs : FS)
    (action actionId : Str) (u : UndoInfo)
    (h1 : action ≠ str "Folder Creation") (h2 : action ≠ str "File Transfer") :
    undoPreviousAction env fsys fs action actionId (.ok u) =
      .ok ((true, none, some actionId), fs) := by
  have hb : undoBody env fsys fs action actionId u = ((true, none, some actionId), fs) := by
    unfold undoBody
    rw [if_neg h1, if_neg h2]
  show Except.ok (undoBody env fsys fs action actionId u) = _
  rw [hb]

/-- Witness for `undo_unknown_action` at a concrete call. -/
theorem undo_unknown_action_witness :
    str "Sort File" ≠ str "Folder Creation" ∧
    str "Sort File" ≠ str "File Transfer" ∧
    undoPreviousAction noFail fsysD fsA (str "Sort File") (str "id7") (.ok {}) =
      .ok ((true, none, some (str "id7")), fsA) :=
  ⟨by decide, by decide,
   undo_unknown_action noFail fsysD fsA (str "Sort File") (str "id7") {}
     (by decide) (by decide)⟩

/-- C8: undoing a folder creation whose folder still has contents fails
with the ENOTEMPTY-specific message - the generic failure line plus the
dedicated "is not empty" line, which no other removal failure produces -
and returns the filesystem unchanged, so the folder and its contents
are untouched.  (The "is not empty" line names
`undoInfoObj.directoryFolderPath`, a field a folder-creation undo record
does not carry, so it prints as `undefined`.) -/
theorem undo_folder_creation_not_empty (env : SysEnv) (fsys : FSys) (fs : FS)
    (actionId : Str) (u : UndoInfo)
    (hex : checkPath fs
      (pathJoin (pathJoin fsys.directoriesFolderPath (jsShow u.letterFolder))
        (jsShow u.directoryName)) = true)
    (hne : hasChild fs
      (pathJoin (pathJoin fsys.directoriesFolderPath (jsShow u.letterFolder))
        (jsShow u.directoryName)) = true) :
    undoPreviousAction env fsys fs (str "Folder Creation") actionId (.ok u) =
      .ok ((false, some (undoFailedMsg (str "Folder Creation") u
        { message := str "ENOTEMPTY: directory not empty, rmdir",
          code := some (str "ENOTEMPTY") }), none), fs) ∧
    undoFailedMsg (str "Folder Creation") u
        { message := str "ENOTEMPTY: directory not empty, rmdir",
          code := some (str "ENOTEMPTY") } =
      (str "Undo Action Failed - Failed to undo " ++ str "Folder Creation" ++ str ".") ++
        str "\nFolder " ++ jsShow u.directoryFolderPath ++ str " is not empty." := by
  constructor
  · have hb : undoBody env fsys fs (str "Folder Creation") actionId u =
        ((false, some (undoFailedMsg (str "Folder Creation") u
          { message := str "ENOTEMPTY: directory not empty, rmdir",
            code := some (str "ENOTEMPTY") }), none), fs) := by
      unfold undoBody
      rw [if_pos rfl, if_neg (by simp [hex])]
      rw [show rmdir env fs
          (pathJoin (pathJoin fsys.directoriesFolderPath (jsShow u.letterFolder))
            (jsShow u.directoryName)) =
          .error { message := str "ENOTEMPTY: directory not empty, rmdir",
                   code := some (str "ENOTEMPTY") } from by
        unfold rmdir
        rw [if_neg (by simp [hex]), if_pos hne]]
    show Except.ok (undoBody env fsys fs (str "Folder Creation") actionId u) = _
    rw [hb]
  · simp [undoFailedMsg]

/-- A category folder `d/B/Beta` that still holds a filed invoice, for
the C8 witness. -/
def fsBeta : FS :=
  [{ path := str "d/B/Beta", isFile := false },
   { path := str "d/B/Beta/2024", isFile := false }]

/-- Witness for `undo_folder_creation_not_empty` at a concrete state. -/
theorem undo_folder_creation_not_empty_witness :
    checkPath fsBeta (pathJoin (pathJoin (str "d") (jsShow (some (str "B"))))
      (jsShow (some (str "Beta")))) = true ∧
    (undoPreviousAction noFail fsysD fsBeta (str "Folder Creation") (str "id3")
        (.ok { letterFolder := some (str "B"), directoryName := some (str "Beta") }) =
      .ok ((false, some (undoFailedMsg (str "Folder Creation")
        { letterFolder := some (str "B"), directoryName := some (str "Beta") }
        { message := str "ENOTEMPTY: directory not empty, rmdir",
          code := some (str "ENOTEMPTY") }), none), fsBeta) ∧
     undoFailedMsg (str "Folder Creation")
        { letterFolder := some (str "B"), directoryName := some (str "Beta") }
        { message := str "ENOTEMPTY: directory not empty, rmdir",
          code := some (str "ENOTEMPTY") } =
      (str "Undo Action Failed - Failed to undo " ++ str "Folder Creation" ++ str ".") ++
        str "\nFolder " ++ jsShow (none : Option Str) ++
        str " is not empty.") :=
  ⟨by decide,
   undo_folder_creation_not_empty noFail fsysD fsBeta (str "id3")
     { letterFolder := some (str "B"), directoryName := some (str "Beta") }
     (by decide) (by decide)⟩

/-- C3 (amended): the mutating operations return structured results -
`createNewFolder` always, `undoPreviousAction` for every call whose
`undoInfo` parses - and a parse failure of `undoInfo` (which happens
before `undoPreviousAction`'s try) escapes it uncaught; `getAllDirectories`
catches every failure but returns `undefined`, not a `(success, message)`
pair; `getInvoice` logs and rethrows, so its failures escape the
operation boundary as exceptions. -/
theorem operations_error_conversion (env : SysEnv) (fsys : FSys) (fs : FS) :
    (∀ q, ∃ b m r fs2, createNewFolder env fsys fs q = ((b, m, r), fs2)) ∧
    (∀ action actionId u,
      (undoPreviousAction env fsys fs action actionId (.ok u)).isOk = true) ∧
    (∀ e action actionId,
      undoPreviousAction env fsys fs action actionId (.error e) = .error e) ∧
    (¬ checkPath fs fsys.directoriesFolderPath = true →
      getAllDirectories fs fsys = none) ∧
    (¬ checkPath fs fsys.invoiceFolderPath = true →
      getInvoice fs fsys = .error
        { message := str "ENOENT: no such file or directory, scandir",
          code := some (str "ENOENT") }) := by
  refine ⟨?_, ?_, ?_, ?_, ?_⟩
  · intro q
    exact ⟨(createNewFolder env fsys fs q).1.1, (createNewFolder env fsys fs q).1.2.1,
      (createNewFolder env fsys fs q).1.2.2, (createNewFolder env fsys fs q).2, rfl⟩
  · intro action actionId u
    rfl
  · intro e action actionId
    rfl
  · intro h
    unfold getAllDirectories
    rw [if_pos h]
  · intro h
    unfold getInvoice readdir
    rw [if_pos h]

/-- Witness for `operations_error_conversion` with empty state: the
directory listing returns `undefined`, the invoice fetch escapes with an
exception, and a malformed `undoInfo` escapes `undoPreviousAction`. -/
theorem operations_error_conversion_witness :
    (¬ checkPath ([] : FS) fsysD.directoriesFolderPath = true) ∧
    getAllDirectories [] fsysD = none ∧
    getInvoice [] fsysD = .error
      { message := str "ENOENT: no such file or directory, scandir",
        code := some (str "ENOENT") } ∧
    undoPreviousAction noFail fsysD [] (str "x") (str "id")
      (.error (str "SyntaxError: Unexpected token u in JSON")) =
      .error (str "SyntaxError: Unexpected token u in JSON") :=
  ⟨by decide,
   (operations_error_conversion noFail fsysD []).2.2.2.1 (by decide),
   (operations_error_conversion noFail fsysD []).2.2.2.2 (by decide),
   (operations_error_conversion noFail fsysD []).2.2.1
     (str "SyntaxError: Unexpected token u in JSON") (str "x") (str "id")⟩

/-- C3 counterexample: with a present but empty invoice root,
`getInvoice` throws `No Valid Files Within Invoice Directory.` out of
the operation (its catch rethrows on line 192), so not every
component-level failure is converted to a `(success=false, message)`
result and an exception does escape an operation boundary. -/
theorem getInvoice_throws_on_empty_folder :
    getInvoice [{ path := str "inv", isFile := false }] fsysD =
      .error { message := str "No Valid Files Within Invoice Directory." } := rfl

end InvoiceSorter
